import Mathlib

/-!
Shallow embedding of the micro-benchmark notebook `src/mirco-benchmark.ipynb`.

The notebook defines a timing harness (`var_dict`, `walltime`), a matrix
multiply throughput cell, an elementwise bandwidth cell, and a transformer
layer sweep (`layer_benchmark`).  Durations and derived throughputs are
modelled as rationals; Python exceptions are modelled with `Except String`.
-/

/-- A Python object as seen by the `is` operator: an identity (`objId`,
the CPython `id`) together with a payload value (standing for `==`
equality).  Two objects can be equal by value yet distinct by identity. -/
structure PyObj where
  objId : Nat
  value : Int
deriving DecidableEq, Repr

/-- The caller frame's local variables, in dictionary order:
`inspect.currentframe().f_back.f_locals.items()`. -/
abbrev Locals := List (String × PyObj)

/-- The list comprehension inside `var_dict`:
`[(name, val) for name, val in callers_local_vars if val is arg]` —
all caller locals whose value `is` (identity-equal to) the argument. -/
def matches_for (locals : Locals) (arg : PyObj) : Locals :=
  locals.filter (fun p => p.2.objId == arg.objId)

/-- The error Python raises when `[...][0]` is taken of an empty list. -/
def IndexErrorMsg : String := "IndexError: list index out of range"

/-- Selecting element `[0]` of the comprehension result: the first
identity match, or an `IndexError` when no caller local matches. -/
def lookup_binding (locals : Locals) (arg : PyObj) : Except String (String × PyObj) :=
  match matches_for locals arg with
  | [] => .error IndexErrorMsg
  | p :: _ => .ok p

/-- The notebook's `var_dict(*args)`: for each positional argument, recover its binding
name from the caller's locals by identity and collect the pairs.
(The Python `dict(...)` is modelled as the association list of pairs in
argument order; the first failing argument raises.) -/
def var_dict (locals : Locals) : List PyObj → Except String Locals
  | [] => .ok []
  | arg :: rest => do
      let p ← lookup_binding locals arg
      let m ← var_dict locals rest
      pure (p :: m)

/-! ## Timing harness

`walltime(stmt, arg_dict, duration=5)` returns
`benchmark.Timer(stmt=stmt, globals=arg_dict).blocked_autorange(min_run_time=duration).median`.
`torch.utils.benchmark` is external library code, modelled from the spec. -/

/-- Median of a list of rationals: sort, take the middle element, or the
mean of the two middle elements when the length is even. -/
def medianQ (l : List ℚ) : ℚ :=
  let s := l.mergeSort (fun a b => a ≤ b)
  if l.length % 2 = 1 then s.getD (l.length / 2) 0
  else (s.getD (l.length / 2 - 1) 0 + s.getD (l.length / 2) 0) / 2

/-- Modelled from the spec: the probe phase of the blocked auto-ranging
strategy in `torch.utils.benchmark.Timer.blocked_autorange` (external
library code not in src/).  Starting from batch size 1, the batch size is
doubled until one batch's duration (`size` runs at `d` seconds each)
reaches the measurement threshold.  `fuel` bounds the doubling. -/
def probeBlockSize (d threshold : ℚ) : Nat → Nat → Nat
  | 0, size => size
  | fuel + 1, size =>
      if threshold ≤ size * d then size
      else probeBlockSize d threshold fuel (2 * size)

/-- Modelled from the spec: the steady-state phase — keep collecting
same-sized batches, recording each batch's mean per-run duration as one
sample, until the cumulative elapsed time reaches `min_run_time`. -/
def collectSamples (batchTime batchMean min_run_time : ℚ) : Nat → ℚ → List ℚ
  | 0, _ => []
  | fuel + 1, elapsed =>
      if min_run_time ≤ elapsed then []
      else batchMean :: collectSamples batchTime batchMean min_run_time fuel (elapsed + batchTime)

/-- The samples the blocked auto-ranging loop collects for an operation
whose single invocation takes `d` seconds (deterministic model). -/
def autorangeSamples (d min_run_time : ℚ) : List ℚ :=
  let size := probeBlockSize d (min_run_time / 1000) 64 1
  let batchTime := size * d
  collectSamples batchTime (batchTime / size) min_run_time 1000000 0

/-- The result object of `blocked_autorange`: the collected per-batch
duration samples. -/
structure Measurement where
  times : List ℚ
deriving Repr

/-- The `median` property of a measurement: the median of the collected samples. -/
def Measurement.median (m : Measurement) : ℚ := medianQ m.times

/-- Modelled from the spec: `Timer(stmt, globals).blocked_autorange(min_run_time)`.
Executing the statement is abstracted by its outcome `run`: an exception,
or a deterministic per-invocation duration in seconds.  An exception on
the first invocation aborts the measurement with the same error. -/
def blocked_autorange (run : Except String ℚ) (min_run_time : ℚ) :
    Except String Measurement :=
  match run with
  | .error e => .error e
  | .ok d => .ok ⟨autorangeSamples d min_run_time⟩

/-- The notebook's `walltime(stmt, arg_dict, duration=5)`: time `stmt`
with the blocked auto-ranging loop and return the median sample.  `exec`
gives the outcome of one execution of `stmt` under the bindings
`arg_dict`; in the notebook `duration` defaults to 5 seconds. -/
def walltime (exec : String → Locals → Except String ℚ)
    (stmt : String) (arg_dict : Locals) (duration : ℚ) : Except String ℚ :=
  (blocked_autorange (exec stmt arg_dict) duration).map Measurement.median

/-! ## Matrix-multiply and elementwise cells -/

/-- The FLOP count the matmul cell uses as the throughput numerator:
`2*n**3` for an `n×n` by `n×n` multiply. -/
def matmul_flops (n : Nat) : Nat := 2 * n ^ 3

/-- One entry of the `matmul_tflops` table: `2*n**3 / t / 1e12` where `t`
is the measured median latency. -/
def matmul_tflops_cell (n : Nat) (t : ℚ) : ℚ := (matmul_flops n : ℚ) / t / 10 ^ 12

/-- Byte size of one `torch.float32` element (IEEE-754 single precision). -/
def float32_itemsize : Nat := 4

/-- The `vector[n]['TFLOPS']` entry: `n / t / 1e12`. -/
def vector_tflops_cell (n : Nat) (t : ℚ) : ℚ := (n : ℚ) / t / 10 ^ 12

/-- The `vector[n]['GB/s']` entry: `8 * n / t / 1e9`. -/
def vector_gbs_cell (n : Nat) (t : ℚ) : ℚ := 8 * (n : ℚ) / t / 10 ^ 9

/-! ## Transformer layer sweep (`layer_benchmark`) -/

/-- The analytic feed-forward cost `ffn = 16*b*s*h*h / 1e12` (TFLOPs)
computed inside `layer_benchmark`. -/
def ffn_tflop (b s h : Nat) : ℚ := (16 * b * s * h * h : Nat) / 10 ^ 12

/-- The analytic attention cost `atten = (4*b*h*s*s + 8*b*s*h*h) / 1e12`
(TFLOPs) computed inside `layer_benchmark`. -/
def atten_tflop (b s h : Nat) : ℚ := (4 * b * h * s * s + 8 * b * s * h * h : Nat) / 10 ^ 12

/-- The analytic forward cost computed inside `layer_benchmark`:
`forward = ffn + (2 if cross_attention else 1) * atten`. -/
def forward_tflop (b s h : Nat) (cross_attention : Bool) : ℚ :=
  ffn_tflop b s h + (if cross_attention then 2 else 1) * atten_tflop b s h

/-- The string `encoder_state = 'encoder_hidden_states=X' if cross_attention else ''`. -/
def encoder_state (cross_attention : Bool) : String :=
  if cross_attention then "encoder_hidden_states=X" else ""

/-- The statement `layer_benchmark` times for the forward entry. -/
def fwd_stmt (cross_attention : Bool) : String :=
  "layer(X, " ++ encoder_state cross_attention ++ ")"

/-- The statement `layer_benchmark` times for the forward+backward entry. -/
def bwd_stmt (cross_attention : Bool) : String :=
  "layer(X, " ++ encoder_state cross_attention ++ ")[0].sum().backward()"

/-- One cell of the sweep table: column label (`batch=...`), row label
(`fwd seq_len=...` or `fwd+bwd seq_len=...`), and the throughput value. -/
abbrev SweepEntry := String × String × ℚ

/-- The two table cells `layer_benchmark` produces at one sweep point
`(s, b)`.  `wt stmt s b` is the median latency `walltime` returns for
`stmt` at that point (the tensor `X` has shape `(b, s, h)`). -/
def sweep_point (h : Nat) (cross_attention : Bool) (wt : String → Nat → Nat → ℚ)
    (s b : Nat) : List SweepEntry :=
  [(s!"batch={b}", s!"fwd seq_len={s}",
      forward_tflop b s h cross_attention / wt (fwd_stmt cross_attention) s b),
   (s!"batch={b}", s!"fwd+bwd seq_len={s}",
      3 * forward_tflop b s h cross_attention / wt (bwd_stmt cross_attention) s b)]

/-- The notebook's `layer_benchmark(layer, hidden_size, seq_lens, batch_sizes, cross_attention)`: for each `s` in `seq_lens` and `b` in `batch_sizes`,
divide the analytic cost by the measured median latency and tabulate. -/
def layer_benchmark (h : Nat) (seq_lens batch_sizes : List Nat)
    (cross_attention : Bool) (wt : String → Nat → Nat → ℚ) : List SweepEntry :=
  seq_lens.flatMap (fun s => batch_sizes.flatMap (fun b =>
    sweep_point h cross_attention wt s b))

/-- One sweep point when measurement may fail: each `walltime` call either
returns a median latency or raises; a raise aborts the point. -/
def sweep_pointE (h : Nat) (cross_attention : Bool)
    (wt : String → Nat → Nat → Except String ℚ) (s b : Nat) :
    Except String (List SweepEntry) := do
  let tf ← wt (fwd_stmt cross_attention) s b
  let tb ← wt (bwd_stmt cross_attention) s b
  pure [(s!"batch={b}", s!"fwd seq_len={s}", forward_tflop b s h cross_attention / tf),
        (s!"batch={b}", s!"fwd+bwd seq_len={s}", 3 * forward_tflop b s h cross_attention / tb)]

/-- The sweep loop threaded through `Except`: the notebook has no
try/except, so the first raising sweep point aborts the whole sweep. -/
def sweepE (h : Nat) (cross_attention : Bool)
    (wt : String → Nat → Nat → Except String ℚ) :
    List (Nat × Nat) → Except String (List SweepEntry)
  | [] => .ok []
  | (s, b) :: rest => do
      let cells ← sweep_pointE h cross_attention wt s b
      let more ← sweepE h cross_attention wt rest
      pure (cells ++ more)

/-- The sweep with failure propagation: the nested `for` loops in
iteration order, aborting at the first raising point. -/
def layer_benchmarkE (h : Nat) (seq_lens batch_sizes : List Nat)
    (cross_attention : Bool) (wt : String → Nat → Nat → Except String ℚ) :
    Except String (List SweepEntry) :=
  sweepE h cross_attention wt
    (seq_lens.flatMap (fun s => batch_sizes.map (fun b => (s, b))))

/-! ## Theorems -/

/-- C2: the matrix-multiply FLOP count used as the throughput numerator is
`2·a·b·c` with `a=b=c=n` (the code computes `2*n**3` before dividing by the
measured time and by `1e12`); `a=b=c=128` gives 4,194,304 FLOPs and
`a=b=c=512` gives 268,435,456 FLOPs. -/
theorem matmul_flops_is_2abc :
    (∀ n : Nat, matmul_flops n = 2 * n * n * n) ∧
    matmul_flops 128 = 4194304 ∧
    matmul_flops 512 = 268435456 ∧
    (∀ (n : Nat) (t : ℚ), matmul_tflops_cell n t = 2 * (n : ℚ) ^ 3 / t / 10 ^ 12) := by
  refine ⟨fun n => by rw [matmul_flops]; ring, by decide, by decide, fun n t => ?_⟩
  rw [matmul_tflops_cell, matmul_flops]
  push_cast
  ring_nf

/-- C3: `layer_benchmark`'s analytic forward cost model uses a feed-forward
cost of `16·b·s·h²` FLOPs and an attention cost of `4·b·h·s² + 8·b·s·h²`
FLOPs (stored as TFLOPs, i.e. divided by `1e12`); at `h=1024, s=128, b=2`
these are 4,294,967,296 and 2,281,701,376 FLOPs. -/
theorem layer_cost_model :
    (∀ b s h : Nat, ffn_tflop b s h = 16 * (b : ℚ) * s * h ^ 2 / 10 ^ 12 ∧
      atten_tflop b s h = (4 * (b : ℚ) * h * s ^ 2 + 8 * (b : ℚ) * s * h ^ 2) / 10 ^ 12) ∧
    ffn_tflop 2 128 1024 = (4294967296 : ℚ) / 10 ^ 12 ∧
    atten_tflop 2 128 1024 = (2281701376 : ℚ) / 10 ^ 12 := by
  refine ⟨fun b s h => ⟨?_, ?_⟩, ?_, ?_⟩
  · rw [ffn_tflop]; push_cast; ring_nf
  · rw [atten_tflop]; push_cast; ring_nf
  · rw [ffn_tflop]; norm_num
  · rw [atten_tflop]; norm_num

/-- C4: with `cross_attention=True` the forward cost is the feed-forward
cost plus exactly two attention terms; with `cross_attention=False` it is
the feed-forward cost plus one attention term — cross-attention adds one
more attention term. -/
theorem forward_cost_attention_terms (b s h : Nat) :
    forward_tflop b s h true = ffn_tflop b s h + 2 * atten_tflop b s h ∧
    forward_tflop b s h false = ffn_tflop b s h + 1 * atten_tflop b s h ∧
    forward_tflop b s h true = forward_tflop b s h false + atten_tflop b s h := by
  refine ⟨?_, ?_, ?_⟩ <;> (simp [forward_tflop]; try ring)

/-- C6 counterexample: the code's `GB/s` entry divides `8·n` (not
element-size `4·n` for float32) by the latency: at `n = 65536`, `t = 1`
the code yields `8·65536/1e9`, not `float32_itemsize·65536/1e9`. -/
theorem vector_gbs_not_single_itemsize :
    vector_gbs_cell 65536 1 ≠ ((float32_itemsize : ℚ) * 65536) / 1 / 10 ^ 9 := by
  rw [vector_gbs_cell, float32_itemsize]
  norm_num

/-- C6 amended: the derived bandwidth is `2·k·n/t` with `k = 4` the
float32 element size in bytes — the constant 8 counts one read of the
input element and one write of the output element (2 × 4 bytes), not an
element size of 8. -/
theorem vector_gbs_is_read_write_bytes (n : Nat) (t : ℚ) :
    vector_gbs_cell n t = (2 * (float32_itemsize : ℚ)) * n / t / 10 ^ 9 := by
  rw [vector_gbs_cell, float32_itemsize]
  norm_num

/-- Helper: a successful `lookup_binding` returns a caller local whose
identity equals the argument's. -/
lemma lookup_binding_ok (locals : Locals) (arg : PyObj) (p : String × PyObj)
    (h : lookup_binding locals arg = .ok p) : p ∈ locals ∧ p.2.objId = arg.objId := by
  rw [lookup_binding] at h
  rcases hm : matches_for locals arg with _ | ⟨q, rest⟩
  · rw [hm] at h; exact absurd h (by simp)
  · rw [hm] at h
    have hq : q ∈ matches_for locals arg := by rw [hm]; exact List.mem_cons_self q rest
    rw [matches_for, List.mem_filter] at hq
    cases h
    exact ⟨hq.1, by simpa using hq.2⟩

/-- Helper: `lookup_binding` can only fail with the `IndexError`. -/
lemma lookup_binding_error (locals : Locals) (arg : PyObj) (e : String)
    (h : lookup_binding locals arg = .error e) : e = IndexErrorMsg := by
  rw [lookup_binding] at h
  rcases hm : matches_for locals arg with _ | ⟨q, rest⟩ <;> rw [hm] at h
  · cases h; rfl
  · exact absurd h (by simp)

/-- C8: every binding `var_dict` returns pairs a caller local with an
argument identical to it (the `is` test), and a caller local that is equal
by value but a different object from the argument is never matched. -/
theorem var_dict_matches_by_identity :
    (∀ (locals : Locals) (args : List PyObj) (m : Locals),
      var_dict locals args = .ok m →
      ∀ p ∈ m, p ∈ locals ∧ ∃ a ∈ args, p.2.objId = a.objId) ∧
    (∀ (locals : Locals) (arg : PyObj) (name : String) (v : PyObj),
      (name, v) ∈ locals → v.value = arg.value → v.objId ≠ arg.objId →
      (name, v) ∉ matches_for locals arg) := by
  constructor
  · intro locals args
    induction args with
    | nil =>
        intro m hm p hp
        rw [var_dict] at hm
        cases hm
        exact absurd hp (by simp)
    | cons a rest ih =>
        intro m hm p hp
        rw [var_dict] at hm
        rcases h1 : lookup_binding locals a with e | q <;> rw [h1] at hm
        · exact absurd hm (by simp [Bind.bind, Except.bind])
        · rcases h2 : var_dict locals rest with e | m' <;>
            rw [h2] at hm <;>
            simp only [Bind.bind, Except.bind, pure, Except.pure] at hm
          · exact absurd hm (by simp)
          · cases hm
            rcases List.mem_cons.mp hp with rfl | hp'
            · obtain ⟨hin, hid⟩ := lookup_binding_ok locals a p h1
              exact ⟨hin, a, List.mem_cons_self a rest, hid⟩
            · obtain ⟨hin, a', ha', hid⟩ := ih m' h2 p hp'
              exact ⟨hin, a', List.mem_cons_of_mem a ha', hid⟩
  · intro locals arg name v _ _ hne hmem
    rw [matches_for, List.mem_filter] at hmem
    exact hne (by simpa using hmem.2)

/-- C8 witness: caller locals `x = PyObj 1 5`, `y = PyObj 2 5`; the
argument is the object bound to `y`; the local `x`, equal by value (5)
but a different object, is never matched. -/
theorem var_dict_matches_by_identity_witness :
    ("x", PyObj.mk 1 5) ∈ ([("x", PyObj.mk 1 5), ("y", PyObj.mk 2 5)] : Locals) ∧
    (PyObj.mk 1 5).value = (PyObj.mk 2 5).value ∧
    (PyObj.mk 1 5).objId ≠ (PyObj.mk 2 5).objId ∧
    ("x", PyObj.mk 1 5) ∉
      matches_for [("x", PyObj.mk 1 5), ("y", PyObj.mk 2 5)] (PyObj.mk 2 5) :=
  ⟨by decide, by decide, by decide,
    var_dict_matches_by_identity.2 [("x", PyObj.mk 1 5), ("y", PyObj.mk 2 5)]
      (PyObj.mk 2 5) "x" (PyObj.mk 1 5) (by decide) (by decide) (by decide)⟩

/-- C10: when some positional argument is not identical to any caller
local, `var_dict` raises the `IndexError` from `[...][0]` on an empty
match list instead of returning a mapping. -/
theorem var_dict_raises_on_unmatched (locals : Locals) (args : List PyObj)
    (a : PyObj) (ha : a ∈ args) (hnone : ∀ p ∈ locals, p.2.objId ≠ a.objId) :
    var_dict locals args = .error IndexErrorMsg := by
  induction args with
  | nil => exact absurd ha (by simp)
  | cons b rest ih =>
      rw [var_dict]
      rcases List.mem_cons.mp ha with rfl | ha'
      · have hnil : matches_for locals a = [] := by
          rw [matches_for, List.filter_eq_nil_iff]
          intro p hp
          simpa using hnone p hp
        have h1 : lookup_binding locals a = .error IndexErrorMsg := by
          rw [lookup_binding, hnil]
        rw [h1]
        rfl
      · rcases h1 : lookup_binding locals b with e | q
        · rw [lookup_binding_error locals b e h1]
          rfl
        · have h2 := ih ha'
          simp only [Bind.bind, Except.bind, h2]

/-- C10 witness: the argument `PyObj 2 5` is not identical to the only
caller local `x = PyObj 1 5` (equal value, different object), so
`var_dict` raises the `IndexError`. -/
theorem var_dict_raises_on_unmatched_witness :
    PyObj.mk 2 5 ∈ [PyObj.mk 2 5] ∧
    (∀ p ∈ ([("x", PyObj.mk 1 5)] : Locals), p.2.objId ≠ (PyObj.mk 2 5).objId) ∧
    var_dict [("x", PyObj.mk 1 5)] [PyObj.mk 2 5] = .error IndexErrorMsg :=
  ⟨by decide, by decide,
    var_dict_raises_on_unmatched [("x", PyObj.mk 1 5)] [PyObj.mk 2 5]
      (PyObj.mk 2 5) (by decide) (by decide)⟩

/-- C5: at every sweep point the table holds a forward entry whose cost
numerator is the analytic forward cost, and a forward+backward entry whose
cost numerator is exactly `3 ×` that same analytic forward cost — the
uniform 1× forward + 2× backward heuristic, not an exact backward count. -/
theorem layer_benchmark_bwd_cost_3x (h : Nat) (seqs bats : List Nat) (cross : Bool)
    (wt : String → Nat → Nat → ℚ) (s b : Nat) (hs : s ∈ seqs) (hb : b ∈ bats) :
    (s!"batch={b}", s!"fwd seq_len={s}",
        forward_tflop b s h cross / wt (fwd_stmt cross) s b) ∈
      layer_benchmark h seqs bats cross wt ∧
    (s!"batch={b}", s!"fwd+bwd seq_len={s}",
        3 * forward_tflop b s h cross / wt (bwd_stmt cross) s b) ∈
      layer_benchmark h seqs bats cross wt := by
  constructor <;>
    (rw [layer_benchmark, List.mem_flatMap]
     exact ⟨s, hs, by
       rw [List.mem_flatMap]
       exact ⟨b, hb, by simp [sweep_point]⟩⟩)

/-- C5 witness: the sweep point `s = 128`, `b = 2` of a
`[128, 512] × [2, 4]` sweep at `h = 1024` with unit latencies. -/
theorem layer_benchmark_bwd_cost_3x_witness :
    ((128 : Nat) ∈ [128, 512] ∧ (2 : Nat) ∈ [2, 4]) ∧
    (("batch=2", "fwd seq_len=128",
        forward_tflop 2 128 1024 false / (fun _ _ _ => (1 : ℚ)) (fwd_stmt false) 128 2) ∈
      layer_benchmark 1024 [128, 512] [2, 4] false (fun _ _ _ => (1 : ℚ)) ∧
     ("batch=2", "fwd+bwd seq_len=128",
        3 * forward_tflop 2 128 1024 false / (fun _ _ _ => (1 : ℚ)) (bwd_stmt false) 128 2) ∈
      layer_benchmark 1024 [128, 512] [2, 4] false (fun _ _ _ => (1 : ℚ))) :=
  ⟨⟨by decide, by decide⟩,
    layer_benchmark_bwd_cost_3x 1024 [128, 512] [2, 4] false
      (fun _ _ _ => (1 : ℚ)) 128 2 (by decide) (by decide)⟩

/-- C9: sweeping sequence lengths `{128, 512}` and batch sizes `{2, 4}`
yields a table keyed by the literal row/column labels with exactly
2×2 = 4 forward entries and 4 forward+backward entries (the code always
produces both rows per point), for any hidden size, cross-attention flag
and measured latencies. -/
theorem layer_benchmark_table_shape (h : Nat) (cross : Bool)
    (wt : String → Nat → Nat → ℚ) :
    (layer_benchmark h [128, 512] [2, 4] cross wt).map (fun e => (e.1, e.2.1)) =
      [("batch=2", "fwd seq_len=128"), ("batch=2", "fwd+bwd seq_len=128"),
       ("batch=4", "fwd seq_len=128"), ("batch=4", "fwd+bwd seq_len=128"),
       ("batch=2", "fwd seq_len=512"), ("batch=2", "fwd+bwd seq_len=512"),
       ("batch=4", "fwd seq_len=512"), ("batch=4", "fwd+bwd seq_len=512")] ∧
    ((layer_benchmark h [128, 512] [2, 4] cross wt).map
        (fun e => (e.1, e.2.1))).countP
      (fun p => decide (p.2 = "fwd seq_len=128" ∨ p.2 = "fwd seq_len=512")) = 4 ∧
    ((layer_benchmark h [128, 512] [2, 4] cross wt).map
        (fun e => (e.1, e.2.1))).countP
      (fun p => decide (p.2 = "fwd+bwd seq_len=128" ∨ p.2 = "fwd+bwd seq_len=512")) = 4 := by
  refine ⟨rfl, ?_, ?_⟩ <;>
    (rw [show (layer_benchmark h [128, 512] [2, 4] cross wt).map (fun e => (e.1, e.2.1)) =
      [("batch=2", "fwd seq_len=128"), ("batch=2", "fwd+bwd seq_len=128"),
       ("batch=4", "fwd seq_len=128"), ("batch=4", "fwd+bwd seq_len=128"),
       ("batch=2", "fwd seq_len=512"), ("batch=2", "fwd+bwd seq_len=512"),
       ("batch=4", "fwd seq_len=512"), ("batch=4", "fwd+bwd seq_len=512")] from rfl]
     decide)

/-- Helper: the probe phase never returns a batch size below its starting
size bound of 1. -/
lemma probeBlockSize_pos (d threshold : ℚ) :
    ∀ (fuel size : Nat), 1 ≤ size → 1 ≤ probeBlockSize d threshold fuel size := by
  intro fuel
  induction fuel with
  | zero => intro size hs; simpa [probeBlockSize] using hs
  | succ n ih =>
      intro size hs
      rw [probeBlockSize]
      split
      · exact hs
      · exact ih (2 * size) (by omega)

/-- Helper: every sample the steady-state phase collects is the batch
mean. -/
lemma collectSamples_mem (batchTime batchMean min_run_time : ℚ) :
    ∀ (fuel : Nat) (elapsed : ℚ) (x : ℚ),
      x ∈ collectSamples batchTime batchMean min_run_time fuel elapsed → x = batchMean := by
  intro fuel
  induction fuel with
  | zero => intro el x hx; exact absurd hx (by simp [collectSamples])
  | succ n ih =>
      intro el x hx
      rw [collectSamples] at hx
      split at hx
      · exact absurd hx (by simp)
      · rcases List.mem_cons.mp hx with rfl | hx'
        · rfl
        · exact ih (el + batchTime) x hx'

/-- Helper: with a positive minimum run time the steady-state phase
collects at least one sample. -/
lemma collectSamples_ne_nil (batchTime batchMean min_run_time : ℚ)
    (fuel : Nat) (hfuel : 0 < fuel) (hmrt : 0 < min_run_time) :
    collectSamples batchTime batchMean min_run_time fuel 0 ≠ [] := by
  cases fuel with
  | zero => omega
  | succ n =>
      rw [collectSamples]
      rw [if_neg (by linarith)]
      exact List.cons_ne_nil _ _

/-- Helper: the median of a nonempty constant list is the constant. -/
lemma medianQ_const (l : List ℚ) (c : ℚ) (hne : l ≠ [])
    (hall : ∀ x ∈ l, x = c) : medianQ l = c := by
  have hlen : (l.mergeSort (fun a b => a ≤ b)).length = l.length :=
    List.length_mergeSort l
  have hmem : ∀ x ∈ l.mergeSort (fun a b => a ≤ b), x = c := fun x hx =>
    hall x (List.mem_mergeSort.mp hx)
  have hpos : 0 < l.length := List.length_pos.mpr hne
  rw [medianQ]
  split
  · have hlt : l.length / 2 < (l.mergeSort (fun a b => a ≤ b)).length := by omega
    rw [List.getD_eq_getElem _ _ hlt]
    exact hmem _ (List.getElem_mem hlt)
  · have hlt1 : l.length / 2 - 1 < (l.mergeSort (fun a b => a ≤ b)).length := by omega
    have hlt2 : l.length / 2 < (l.mergeSort (fun a b => a ≤ b)).length := by omega
    rw [List.getD_eq_getElem _ _ hlt1, List.getD_eq_getElem _ _ hlt2]
    rw [hmem _ (List.getElem_mem hlt1), hmem _ (List.getElem_mem hlt2)]
    ring

/-- C1: when the timed statement runs (taking `d` seconds per invocation)
`walltime` returns exactly the median of the per-batch samples the blocked
auto-ranging loop collected — a single scalar; the sample list is nonempty
and, the per-invocation duration being deterministic, every sample equals
`d` and the returned median is `d` itself. -/
theorem walltime_returns_median_of_samples
    (exec : String → Locals → Except String ℚ) (stmt : String) (args : Locals)
    (d dur : ℚ) (hdur : 0 < dur) (hexec : exec stmt args = .ok d) :
    walltime exec stmt args dur = .ok (medianQ (autorangeSamples d dur)) ∧
    autorangeSamples d dur ≠ [] ∧
    (∀ x ∈ autorangeSamples d dur, x = d) ∧
    walltime exec stmt args dur = .ok d := by
  have hsize : 1 ≤ probeBlockSize d (dur / 1000) 64 1 :=
    probeBlockSize_pos d (dur / 1000) 64 1 le_rfl
  have hsizeQ : ((probeBlockSize d (dur / 1000) 64 1 : Nat) : ℚ) ≠ 0 := by
    exact_mod_cast Nat.one_le_iff_ne_zero.mp hsize
  have hmean : ((probeBlockSize d (dur / 1000) 64 1 : Nat) : ℚ) * d /
      (probeBlockSize d (dur / 1000) 64 1 : Nat) = d :=
    mul_div_cancel_left₀ d hsizeQ
  have h1 : walltime exec stmt args dur = .ok (medianQ (autorangeSamples d dur)) := by
    rw [walltime, hexec, blocked_autorange]
    rfl
  have h2 : autorangeSamples d dur ≠ [] := by
    rw [autorangeSamples]
    exact collectSamples_ne_nil _ _ _ 1000000 (by norm_num) hdur
  have h3 : ∀ x ∈ autorangeSamples d dur, x = d := by
    intro x hx
    rw [autorangeSamples] at hx
    have := collectSamples_mem _ _ _ _ _ _ hx
    rw [this, hmean]
  refine ⟨h1, h2, h3, ?_⟩
  rw [h1, medianQ_const _ d h2 h3]

/-- C1 witness: an operation taking 1 second per invocation, timed with a
5-second budget. -/
theorem walltime_returns_median_of_samples_witness :
    (0 : ℚ) < 5 ∧
    ((fun _ _ => Except.ok 1 : String → Locals → Except String ℚ) "a @ b" [] = .ok 1) ∧
    (walltime (fun _ _ => .ok 1) "a @ b" [] 5 = .ok (medianQ (autorangeSamples 1 5)) ∧
     autorangeSamples 1 5 ≠ [] ∧
     (∀ x ∈ autorangeSamples 1 5, x = 1) ∧
     walltime (fun _ _ => .ok 1) "a @ b" [] 5 = .ok 1) :=
  ⟨by norm_num, rfl,
    walltime_returns_median_of_samples (fun _ _ => .ok 1) "a @ b" [] 1 5
      (by norm_num) rfl⟩

/-- Helper: a sweep point that produced cells measured its forward
statement successfully. -/
lemma sweep_pointE_ok_fwd (h : Nat) (cross : Bool)
    (wt : String → Nat → Nat → Except String ℚ) (s b : Nat)
    (cells : List SweepEntry) (hok : sweep_pointE h cross wt s b = .ok cells) :
    ∃ v, wt (fwd_stmt cross) s b = .ok v := by
  rw [sweep_pointE] at hok
  rcases hf : wt (fwd_stmt cross) s b with e | v
  · rw [hf] at hok
    exact absurd hok (by simp [Bind.bind, Except.bind])
  · exact ⟨v, rfl⟩

/-- Helper: a sweep that produced a table measured the forward statement
of every one of its points successfully (there is no catch-and-continue). -/
lemma sweepE_ok_fwd (h : Nat) (cross : Bool)
    (wt : String → Nat → Nat → Except String ℚ) :
    ∀ (pts : List (Nat × Nat)) (tbl : List SweepEntry),
      sweepE h cross wt pts = .ok tbl →
      ∀ s b, (s, b) ∈ pts → ∃ v, wt (fwd_stmt cross) s b = .ok v := by
  intro pts
  induction pts with
  | nil => intro tbl _ s b hmem; exact absurd hmem (by simp)
  | cons p rest ih =>
      intro tbl hok s b hmem
      obtain ⟨s', b'⟩ := p
      rw [sweepE] at hok
      rcases hsp : sweep_pointE h cross wt s' b' with e | cells
      · rw [hsp] at hok
        exact absurd hok (by simp [Bind.bind, Except.bind])
      · rw [hsp] at hok
        rcases hrest : sweepE h cross wt rest with e | more
        · rw [hrest] at hok
          exact absurd hok (by simp [Bind.bind, Except.bind])
        · rcases List.mem_cons.mp hmem with heq | hmem'
          · cases heq
            exact sweep_pointE_ok_fwd h cross wt s b cells hsp
          · exact ih more hrest s b hmem'

/-- C7: a raising operation propagates through `walltime` as the same
error with no partial result, and `layer_benchmark` has no
catch-and-continue: if the forward measurement of any sweep point raises,
the sweep produces no table at all (zero rows, no sentinel value). -/
theorem failure_propagation :
    (∀ (exec : String → Locals → Except String ℚ) (stmt : String)
        (args : Locals) (dur : ℚ) (e : String),
      exec stmt args = .error e → walltime exec stmt args dur = .error e) ∧
    (∀ (h : Nat) (seqs bats : List Nat) (cross : Bool)
        (wt : String → Nat → Nat → Except String ℚ) (s b : Nat) (e : String),
      s ∈ seqs → b ∈ bats → wt (fwd_stmt cross) s b = .error e →
      (layer_benchmarkE h seqs bats cross wt).isOk = false) := by
  constructor
  · intro exec stmt args dur e hexec
    rw [walltime, hexec, blocked_autorange]
    rfl
  · intro h seqs bats cross wt s b e hs hb hw
    rcases hres : layer_benchmarkE h seqs bats cross wt with e' | tbl
    · rfl
    · exfalso
      rw [layer_benchmarkE] at hres
      have hmem : (s, b) ∈ seqs.flatMap (fun s => bats.map (fun b => (s, b))) :=
        List.mem_flatMap.mpr ⟨s, hs, List.mem_map.mpr ⟨b, hb, rfl⟩⟩
      obtain ⟨v, hv⟩ := sweepE_ok_fwd h cross wt _ tbl hres s b hmem
      rw [hw] at hv
      cases hv

/-- C7 witness: an operation raising `RuntimeError` propagates through
`walltime` unchanged, and a `[128] × [2]` sweep whose forward measurement
raises produces no table. -/
theorem failure_propagation_witness :
    (walltime (fun _ _ => .error "RuntimeError") "a @ b" [] 5 = .error "RuntimeError") ∧
    ((128 : Nat) ∈ [128] ∧ (2 : Nat) ∈ [2] ∧
     (fun _ _ _ => Except.error "RuntimeError" :
        String → Nat → Nat → Except String ℚ) (fwd_stmt false) 128 2 =
       .error "RuntimeError" ∧
     (layer_benchmarkE 1024 [128] [2] false (fun _ _ _ => .error "RuntimeError")).isOk
       = false) :=
  ⟨failure_propagation.1 (fun _ _ => .error "RuntimeError") "a @ b" [] 5
      "RuntimeError" rfl,
    by decide, by decide, rfl,
    failure_propagation.2 1024 [128] [2] false (fun _ _ _ => .error "RuntimeError")
      128 2 "RuntimeError" (by decide) (by decide) rfl⟩
